import Mathlib

/-!
Verification of the streaming table-extraction engine of `snow-v3.py`
(`TableParser`, `clean_malformed_html`, `extract_first_table_from_html`,
`save_table_to_csv`).  The parser methods are embedded one-to-one as pure
state-transition functions; the event stream delivered by Python's
`html.parser.HTMLParser` tokenizer is modelled by the `Event` type, and a
small tokenizer for the simple markup used in the concrete scenarios is
provided to connect raw input strings to event streams.
-/

namespace SnowV3

/-- Whitespace class used by Python's `str.strip()` (ASCII part, which is all
the inputs here contain): space, tab, newline, carriage return, vertical tab,
form feed. -/
def isPySpace (c : Char) : Bool :=
  c = ' ' || c = '\t' || c = '\n' || c = '\r' || c = '\x0b' || c = '\x0c'

/-- Python `str.strip()` on a character list: drop leading and trailing
whitespace. -/
def pyStripList (l : List Char) : List Char :=
  ((l.dropWhile isPySpace).reverse.dropWhile isPySpace).reverse

/-- Python `str.strip()`. -/
def pyStrip (s : String) : String :=
  String.mk (pyStripList s.data)

/-- `self.meaningful_tags` from `TableParser._init_nested_tracking`. -/
def meaningful_tags : List String :=
  ["div", "span", "a", "p", "strong", "em", "b", "i"]

/-- `DEFAULT_TARGET_TABLE` from `snow-v3.py`. -/
def DEFAULT_TARGET_TABLE : Nat := 1

/-- The mutable fields of a `TableParser` instance (set up by
`_init_parsing_state`, `_init_table_data`, `_init_nested_tracking` and
`__init__`).  `failed` models an exception having been raised while feeding
the parser (Python aborts the feed; the caller's `try/except` observes it). -/
structure State where
  in_table : Bool
  in_thead : Bool
  in_tbody : Bool
  in_tr : Bool
  in_th : Bool
  in_td : Bool
  current_row : List String
  current_cell : String
  headers : List String
  rows : List (List String)
  table_count : Nat
  nested_element_stack : List String
  nested_content : String
  first_nested_content : String
  has_nested_content : Bool
  target_table : Nat
  failed : Bool
deriving Repr, DecidableEq

/-- The freshly constructed parser, `TableParser(DEFAULT_TARGET_TABLE)`. -/
def initState : State where
  in_table := false
  in_thead := false
  in_tbody := false
  in_tr := false
  in_th := false
  in_td := false
  current_row := []
  current_cell := ""
  headers := []
  rows := []
  table_count := 0
  nested_element_stack := []
  nested_content := ""
  first_nested_content := ""
  has_nested_content := false
  target_table := DEFAULT_TARGET_TABLE
  failed := false

/-- `TableParser._is_in_cell`. -/
def is_in_cell (st : State) : Bool :=
  st.in_th || st.in_td

/-- `TableParser._reset_cell_state` (both identical definitions in the
source). -/
def reset_cell_state (st : State) : State :=
  { st with current_cell := "", nested_element_stack := [],
            nested_content := "", first_nested_content := "",
            has_nested_content := false }

/-- `TableParser._handle_table_start`. -/
def handle_table_start (st : State) : State :=
  let st := { st with table_count := st.table_count + 1 }
  if st.table_count = st.target_table then { st with in_table := true } else st

/-- `TableParser._handle_row_start`. -/
def handle_row_start (st : State) : State :=
  { st with in_tr := true, current_row := [] }

/-- `TableParser._handle_header_cell_start`. -/
def handle_header_cell_start (st : State) : State :=
  reset_cell_state { st with in_th := true }

/-- `TableParser._handle_data_cell_start`. -/
def handle_data_cell_start (st : State) : State :=
  reset_cell_state { st with in_td := true }

/-- `TableParser._handle_table_content_start`. -/
def handle_table_content_start (st : State) (tag : String) : State :=
  if tag = "thead" then { st with in_thead := true }
  else if tag = "tbody" then { st with in_tbody := true }
  else if tag = "tr" then handle_row_start st
  else if tag = "th" && st.in_tr then handle_header_cell_start st
  else if tag = "td" && st.in_tr then handle_data_cell_start st
  else st

/-- `TableParser._handle_nested_element_start`.  The head of
`nested_element_stack` models the top (Python appends at the end and inspects
`stack[-1]`). -/
def handle_nested_element_start (st : State) (tag : String) : State :=
  let st := { st with nested_element_stack := tag :: st.nested_element_stack }
  if !st.has_nested_content then { st with nested_content := "" } else st

/-- `TableParser.handle_starttag`: note that the `elif self.in_table` branch
is tested before the nested-element branch, exactly as in the source. -/
def handle_starttag (st : State) (tag : String) : State :=
  if tag = "table" then handle_table_start st
  else if st.in_table then handle_table_content_start st tag
  else if is_in_cell st && meaningful_tags.contains tag then
    handle_nested_element_start st tag
  else st

/-- `TableParser._row_has_content`. -/
def row_has_content (st : State) : Bool :=
  st.current_row.any (fun cell => pyStrip cell != "")

/-- `TableParser._is_header_row`. -/
def is_header_row (st : State) : Bool :=
  st.in_thead || (st.headers.isEmpty && !st.in_tbody)

/-- `TableParser._add_header_row`. -/
def add_header_row (st : State) : State :=
  if st.headers.isEmpty then { st with headers := st.current_row } else st

/-- `TableParser._add_data_row`. -/
def add_data_row (st : State) : State :=
  { st with rows := st.rows ++ [st.current_row] }

/-- `TableParser._handle_row_end`. -/
def handle_row_end (st : State) : State :=
  let st := { st with in_tr := false }
  let st :=
    if !st.current_row.isEmpty && row_has_content st then
      if is_header_row st then add_header_row st else add_data_row st
    else st
  { st with current_row := [] }

/-- `TableParser._determine_cell_content`. -/
def determine_cell_content (st : State) : String :=
  if st.has_nested_content && !st.first_nested_content.isEmpty then
    st.first_nested_content
  else
    pyStrip st.current_cell

/-- `TableParser._get_final_cell_content`: returns the resolved content and
the state after `_reset_cell_state`. -/
def get_final_cell_content (st : State) : String × State :=
  (determine_cell_content st, reset_cell_state st)

/-- `TableParser._handle_header_cell_end`. -/
def handle_header_cell_end (st : State) : State :=
  let st := { st with in_th := false }
  let p := get_final_cell_content st
  { p.2 with current_row := p.2.current_row ++ [p.1] }

/-- `TableParser._handle_data_cell_end`. -/
def handle_data_cell_end (st : State) : State :=
  let st := { st with in_td := false }
  let p := get_final_cell_content st
  { p.2 with current_row := p.2.current_row ++ [p.1] }

/-- `TableParser._handle_nested_element_end`. -/
def handle_nested_element_end (st : State) (tag : String) : State :=
  match st.nested_element_stack with
  | top :: restStack =>
    if top = tag then
      let st := { st with nested_element_stack := restStack }
      if !st.has_nested_content && !(pyStrip st.nested_content).isEmpty then
        { st with first_nested_content := pyStrip st.nested_content,
                  has_nested_content := true }
      else st
    else st
  | [] => st

/-- `TableParser._handle_table_end`. -/
def handle_table_end (st : State) : State :=
  if !st.headers.isEmpty || !st.rows.isEmpty then
    { st with in_table := false }
  else
    { st with target_table := st.target_table + 1, in_table := false }

/-- `TableParser._handle_table_content_end`. -/
def handle_table_content_end (st : State) (tag : String) : State :=
  if tag = "thead" && st.in_thead then { st with in_thead := false }
  else if tag = "tbody" && st.in_tbody then { st with in_tbody := false }
  else if tag = "tr" && st.in_tr then handle_row_end st
  else if tag = "th" && st.in_th then handle_header_cell_end st
  else if tag = "td" && st.in_td then handle_data_cell_end st
  else st

/-- `TableParser.handle_endtag`: the `elif self.in_table` branch again
shadows the nested-element branch, as in the source. -/
def handle_endtag (st : State) (tag : String) : State :=
  if tag = "table" && st.in_table then handle_table_end st
  else if st.in_table then handle_table_content_end st tag
  else if is_in_cell st && meaningful_tags.contains tag then
    handle_nested_element_end st tag
  else st

/-- `TableParser._handle_cell_data`. -/
def handle_cell_data (st : State) (data : String) : State :=
  let st := { st with current_cell := st.current_cell ++ data }
  if !st.nested_element_stack.isEmpty && !st.has_nested_content then
    { st with nested_content := st.nested_content ++ data }
  else st

/-- `TableParser.handle_data`. -/
def handle_data (st : State) (data : String) : State :=
  if is_in_cell st then handle_cell_data st data else st

/-- The fragment of the replacement table consulted by `html.unescape`
that this development models; every pair agrees with the html5 entity table
Python consults (`nbsp` is U+00A0, `copy` is U+00A9, `eacute` is U+00E9,
and so on).  Python knows over two thousand names; a name outside this
fragment is outside the model, and every theorem that depends on entity
decoding restricts itself to this fragment through `decodeEventText`. -/
def html_entity_table : List (String × String) :=
  [("amp", "&"), ("lt", "<"), ("gt", ">"), ("quot", "\""),
   ("apos", "\x27"), ("nbsp", "\u00a0"), ("copy", "\u00a9"),
   ("reg", "\u00ae"), ("trade", "\u2122"), ("deg", "\u00b0"),
   ("middot", "\u00b7"), ("laquo", "\u00ab"), ("raquo", "\u00bb"),
   ("ndash", "\u2013"), ("mdash", "\u2014"), ("hellip", "\u2026"),
   ("bull", "\u2022"), ("euro", "\u20ac"), ("pound", "\u00a3"),
   ("yen", "\u00a5"), ("cent", "\u00a2"), ("sect", "\u00a7"),
   ("para", "\u00b6"), ("micro", "\u00b5"), ("plusmn", "\u00b1"),
   ("times", "\u00d7"), ("divide", "\u00f7"), ("frac12", "\u00bd"),
   ("frac14", "\u00bc"), ("frac34", "\u00be"), ("sup2", "\u00b2"),
   ("sup3", "\u00b3"), ("eacute", "\u00e9"), ("egrave", "\u00e8"),
   ("agrave", "\u00e0"), ("ccedil", "\u00e7"), ("uuml", "\u00fc"),
   ("ouml", "\u00f6"), ("auml", "\u00e4"), ("szlig", "\u00df"),
   ("lsquo", "\u2018"), ("rsquo", "\u2019"), ("ldquo", "\u201c"),
   ("rdquo", "\u201d")]

/-- Models `html.unescape(f"&{name};")` as used in
`TableParser.handle_entityref`, on the modelled fragment: a name in
`html_entity_table` decodes to its character, any other name is returned as
the literal escape.  The latter is exactly what Python produces for a
genuinely invalid name; for a valid name outside the fragment (which Python
would decode) it is only a placeholder, and no theorem relies on it:
`decodeEventText` marks such an event as outside the model. -/
def html_unescape_ref (name : String) : String :=
  match html_entity_table.lookup name with
  | some s => s
  | none => "&" ++ name ++ ";"

/-- `TableParser.handle_entityref`. -/
def handle_entityref (st : State) (name : String) : State :=
  if is_in_cell st then handle_cell_data st (html_unescape_ref name) else st

/-- Value of a hexadecimal digit, written over code points (as accepted by
Python's `int(_, 16)`: the ten digits plus either case of a through f). -/
def hexDigitVal (c : Char) : Option Nat :=
  let n := c.toNat
  if 48 ≤ n ∧ n ≤ 57 then some (n - 48)
  else if 97 ≤ n ∧ n ≤ 102 then some (n - 87)
  else if 65 ≤ n ∧ n ≤ 70 then some (n - 55)
  else none

/-- Value of a decimal digit, written over code points (as accepted by
Python's `int`). -/
def decDigitVal (c : Char) : Option Nat :=
  let n := c.toNat
  if 48 ≤ n ∧ n ≤ 57 then some (n - 48) else none

/-- Positional parse of a digit string; `none` models `int` raising
`ValueError` on a non-digit. -/
def parseNatAux (digitVal : Char → Option Nat) (base : Nat) :
    List Char → Nat → Option Nat
  | [], acc => some acc
  | c :: cs, acc =>
    match digitVal c with
    | some d => parseNatAux digitVal base cs (acc * base + d)
    | none => none

/-- Parse of a non-empty digit string (`int("")` raises). -/
def parseNat (digitVal : Char → Option Nat) (base : Nat) (l : List Char) :
    Option Nat :=
  if l.isEmpty then none else parseNatAux digitVal base l 0

/-- `TableParser._decode_char_reference`: a leading `x` selects base 16,
otherwise base 10; `none` models `int` raising. -/
def decode_char_reference (name : String) : Option Nat :=
  match name.data with
  | 'x' :: restDigits => parseNat hexDigitVal 16 restDigits
  | l => parseNat decDigitVal 10 l

/-- Code points accepted as a Lean `Char`.  Python's `chr` additionally
accepts surrogates, which cannot occur in a Lean `String`; a reference to one
is routed to the failure path together with out-of-range values (for which
Python's `chr` raises). -/
def isValidScalar (n : Nat) : Bool :=
  n < 0xd800 || (0xe000 ≤ n && n ≤ 0x10ffff)

/-- `TableParser.handle_charref`: outside a cell the reference is ignored
without being decoded; inside a cell a decode failure raises (modelled by
`failed`). -/
def handle_charref (st : State) (name : String) : State :=
  if is_in_cell st then
    match decode_char_reference name with
    | some n =>
      if isValidScalar n then handle_cell_data st (String.mk [Char.ofNat n])
      else { st with failed := true }
    | none => { st with failed := true }
  else st

/-- One tokenizer event delivered to the parser by `HTMLParser`. -/
inductive Event where
  | startTag (tag : String)
  | endTag (tag : String)
  | text (data : String)
  | entityRef (name : String)
  | charRef (name : String)
deriving Repr, DecidableEq

/-- Dispatch of one event to the parser's handler; once `failed` is set the
feed has aborted and later events are not processed. -/
def step (st : State) (e : Event) : State :=
  if st.failed then st
  else
    match e with
    | .startTag tag => handle_starttag st tag
    | .endTag tag => handle_endtag st tag
    | .text d => handle_data st d
    | .entityRef name => handle_entityref st name
    | .charRef name => handle_charref st name

/-- Feeding a whole event stream, `parser.feed(...)`. -/
def run (st : State) (es : List Event) : State :=
  es.foldl step st

/-- The part of `extract_first_table_from_html` downstream of tokenization:
the `try/except` returns `([], [])` when the feed raised, the
`if not parser.table_count` guard returns `([], [])` when no table start tag
was ever seen, and otherwise the parser's headers and rows are returned. -/
def extractEvents (es : List Event) : List String × List (List String) :=
  let parser := run initState es
  if parser.failed then ([], [])
  else if parser.table_count = 0 then ([], [])
  else (parser.headers, parser.rows)

/-- `extract_first_table_from_html` at the tokenizer boundary: the tokenizer
either yields an event stream or fails with an unrecoverable error; in the
latter case the `except Exception` branch returns `([], [])`. -/
def extract_first_table_from_html (input : Except String (List Event)) :
    List String × List (List String) :=
  match input with
  | .error _ => ([], [])
  | .ok es => extractEvents es

/-- Characters allowed in a tag or entity name by the simple tokenizer. -/
def isNameChar (c : Char) : Bool :=
  c.isAlpha || c.isDigit || c = '-'

/-- Lowercasing applied by `HTMLParser` to tag names. -/
def listToLower (l : List Char) : List Char :=
  l.map Char.toLower

/-- Fuel-indexed tokenizer for the simple markup of the concrete scenarios,
modelling the event stream `HTMLParser` delivers for it: tags (attributes
skipped up to the closing angle bracket, names lowercased), references
introduced by an ampersand (numeric ones carry the text between the hash sign
and the semicolon), and runs of plain text. -/
def tokenizeAux : Nat → List Char → List Event
  | 0, _ => []
  | fuel + 1, l =>
    match l with
    | [] => []
    | '<' :: '/' :: rest =>
      let name := rest.takeWhile isNameChar
      let after :=
        ((rest.dropWhile isNameChar).dropWhile (fun c => !(c = '>'))).drop 1
      .endTag (String.mk (listToLower name)) :: tokenizeAux fuel after
    | '<' :: c :: rest =>
      if c.isAlpha then
        let name := (c :: rest).takeWhile isNameChar
        let after :=
          (((c :: rest).dropWhile isNameChar).dropWhile
            (fun ch => !(ch = '>'))).drop 1
        .startTag (String.mk (listToLower name)) :: tokenizeAux fuel after
      else
        .text (String.mk ['<']) :: tokenizeAux fuel (c :: rest)
    | '&' :: '#' :: rest =>
      let name := rest.takeWhile (fun c => !(c = ';'))
      let after := (rest.dropWhile (fun c => !(c = ';'))).drop 1
      .charRef (String.mk name) :: tokenizeAux fuel after
    | '&' :: rest =>
      let name := rest.takeWhile isNameChar
      let after := (rest.dropWhile isNameChar).drop 1
      .entityRef (String.mk name) :: tokenizeAux fuel after
    | c :: rest =>
      let keep := fun ch => !(ch = '<') && !(ch = '&')
      .text (String.mk ((c :: rest).takeWhile keep)) ::
        tokenizeAux fuel ((c :: rest).dropWhile keep)

/-- Tokenizing a whole document (each event consumes at least one character,
so the character count bounds the number of steps). -/
def tokenize (s : String) : List Event :=
  tokenizeAux s.length s.data

/-- The characters of a table start tag, used by the first rewrite of
`clean_malformed_html`. -/
def tableOpenChars : List Char := "<table".data

/-- The characters of a table close tag, used by the third rewrite of
`clean_malformed_html`. -/
def tableCloseChars : List Char := "</table>".data

/-- Match of the first `re.sub` pattern of `clean_malformed_html`,
`<table([^>]*?)></table\s+([^>]*?)>`, at the head of the text: returns the
two captured groups and the remainder after the match.  Both groups exclude
the closing angle bracket, so the lazy quantifiers admit exactly one
candidate split. -/
def matchP1 (l : List Char) : Option (List Char × List Char × List Char) :=
  if tableOpenChars.isPrefixOf l then
    let t0 := l.drop 6
    let grpA := t0.takeWhile (fun c => !(c = '>'))
    match t0.drop grpA.length with
    | '>' :: u =>
      if "</table".data.isPrefixOf u then
        let v := u.drop 7
        let ws := v.takeWhile isPySpace
        if ws.isEmpty then none
        else
          let w := v.drop ws.length
          let grpB := w.takeWhile (fun c => !(c = '>'))
          match w.drop grpB.length with
          | '>' :: rest => some (grpA, grpB, rest)
          | _ => none
      else none
    | _ => none
  else none

/-- Lazy scan of `([^>]*?)/>` for the second rewrite: the shortest run of
characters other than a closing angle bracket that is followed by `/>`. -/
def scanP2 : List Char → Option (List Char × List Char)
  | '/' :: '>' :: rest => some ([], rest)
  | '>' :: _ => none
  | c :: cs =>
    match scanP2 cs with
    | some (g, r) => some (c :: g, r)
    | none => none
  | [] => none

/-- Match of the second `re.sub` pattern, `<(td|th)([^>]*?)/>`, at the head
of the text: returns the tag name, the attribute group and the remainder. -/
def matchP2 (l : List Char) : Option (List Char × List Char × List Char) :=
  match l with
  | '<' :: 't' :: 'd' :: rest =>
    match scanP2 rest with
    | some (g, r) => some (['t', 'd'], g, r)
    | none => none
  | '<' :: 't' :: 'h' :: rest =>
    match scanP2 rest with
    | some (g, r) => some (['t', 'h'], g, r)
    | none => none
  | _ => none

/-- Match of the third `re.sub` pattern, `</table>\s*</table>`, at the head
of the text: returns the remainder after the second close tag. -/
def matchP3 (l : List Char) : Option (List Char) :=
  if tableCloseChars.isPrefixOf l then
    let u := l.drop 8
    let ws := u.takeWhile isPySpace
    let v := u.drop ws.length
    if tableCloseChars.isPrefixOf v then some (v.drop 8) else none
  else none

/-- `re.sub` with the first pattern and replacement `<table\1 \2>`: leftmost
match, replaced, scanning resumes after the match. -/
def sub1Aux : Nat → List Char → List Char
  | 0, l => l
  | fuel + 1, l =>
    match matchP1 l with
    | some (grpA, grpB, rest) =>
      tableOpenChars ++ grpA ++ [' '] ++ grpB ++ ['>'] ++ sub1Aux fuel rest
    | none =>
      match l with
      | [] => []
      | c :: cs => c :: sub1Aux fuel cs

/-- `re.sub` with the second pattern and replacement `<\1\2></\1>`. -/
def sub2Aux : Nat → List Char → List Char
  | 0, l => l
  | fuel + 1, l =>
    match matchP2 l with
    | some (tagName, g, rest) =>
      '<' :: (tagName ++ g ++ ['>', '<', '/'] ++ tagName ++ ['>']) ++
        sub2Aux fuel rest
    | none =>
      match l with
      | [] => []
      | c :: cs => c :: sub2Aux fuel cs

/-- `re.sub` with the third pattern and replacement `</table>`. -/
def sub3Aux : Nat → List Char → List Char
  | 0, l => l
  | fuel + 1, l =>
    match matchP3 l with
    | some rest => tableCloseChars ++ sub3Aux fuel rest
    | none =>
      match l with
      | [] => []
      | c :: cs => c :: sub3Aux fuel cs

/-- `clean_malformed_html`: the early return on empty input, then the three
rewrites in order.  Every match consumes at least one character, so the
character count is enough fuel for a full scan. -/
def clean_malformed_html (s : String) : String :=
  if s.isEmpty then s
  else
    let l1 := sub1Aux s.data.length s.data
    let l2 := sub2Aux l1.length l1
    let l3 := sub3Aux l2.length l2
    String.mk l3

/-- The whole extraction pipeline on a raw input string, as performed by
`extract_first_table_from_html` when the tokenizer succeeds:
`clean_malformed_html`, tokenization, then the parser. -/
def extractFromString (s : String) : List String × List (List String) :=
  extractEvents (tokenize (clean_malformed_html s))

/-- Occurrence of the first malformed-markup pattern anywhere in the text. -/
def occursP1 (l : List Char) : Bool :=
  l.tails.any (fun t => (matchP1 t).isSome)

/-- Occurrence of the second malformed-markup pattern anywhere in the text. -/
def occursP2 (l : List Char) : Bool :=
  l.tails.any (fun t => (matchP2 t).isSome)

/-- Occurrence of the third malformed-markup pattern anywhere in the text. -/
def occursP3 (l : List Char) : Bool :=
  l.tails.any (fun t => (matchP3 t).isSome)

/-- Concrete scenario 1 of the spec, verbatim. -/
def scenario1_input : String :=
  "<table><thead><tr><th><div>Name</div></th><th><span>Age</span></th><th>City</th></tr></thead><tbody><tr><td><div>John Doe</div></td><td><div>30</div><div>thirty</div></td><td><span>New York</span></td></tr><tr><td><a>Jane Smith</a></td><td><div>25</div><div>twenty-five</div></td><td>Los Angeles</td></tr></tbody></table>"

/-- A cell holding exactly one nested meaningful element with non-blank text
plus additional direct text outside the nested tag. -/
def c1_failing_input : String :=
  "<table><tr><td><div>A</div> x</td></tr></table>"

/-- A table whose rows sit in a tbody and that carries no thead. -/
def c6_failing_input : String :=
  "<table><tbody><tr><td>A</td></tr><tr><td>B</td></tr></tbody></table>"

/-- The events of one table occurrence holding a single row with a single
data cell whose text is `w`; with `w` blank this is an empty occurrence. -/
def emptyTableEvents (w : String) : List Event :=
  [.startTag "table", .startTag "tr", .startTag "td", .text w,
   .endTag "td", .endTag "tr", .endTag "table"]

/-- Advancing both the running table counter and the target index by one:
the state reached after a blank target occurrence differs from the initial
state exactly by this shift. -/
def shiftState (st : State) : State :=
  { st with table_count := st.table_count + 1,
            target_table := st.target_table + 1 }

/-- The second table occurrence of concrete scenario 2: one header row and
one data row. -/
def c3_rest_input : String :=
  "<table><tr><th>H</th></tr><tr><td>D</td></tr></table>"

/-- A tokenizer failure, the situation `except Exception` guards against. -/
def malformedTokenStream : Except String (List Event) :=
  .error "unrecoverable token stream"

/-- Whether an event is a table start tag (the only event that increments
`table_count`). -/
def isTableStartEvent : Event → Bool
  | .startTag tag => tag = "table"
  | _ => false

/-- An event stream without any table start tag, used to instantiate the
no-table property. -/
def c5_witness_events : List Event :=
  [.text "hello", .startTag "div", .text "world", .endTag "div"]

/-- An input text containing none of the three malformed-markup patterns. -/
def c8_witness_input : String :=
  "hello <b>x</b>"

/-- The event sequence of a th start tag arriving while a td cell is still
open (markup such as a td cell never closed before a th). -/
def c7_failing_events : List Event :=
  [.startTag "table", .startTag "tr", .startTag "td", .startTag "th"]

/-- A well-nested cell sequence: the td cell closes before the th opens. -/
def c7_witness_events : List Event :=
  [.startTag "table", .startTag "tr", .startTag "td", .endTag "td",
   .startTag "th"]

/-- Guard under which one event keeps the cell flags mutually exclusive: a
th or td start tag may only arrive while no cell is open. -/
def cellStartGuardOk (st : State) : Event → Bool
  | .startTag tag =>
    if tag = "th" || tag = "td" then !(st.in_th || st.in_td) else true
  | _ => true

/-- A trace is cell-guarded when every th/td start tag in it arrives with no
cell open in the state reached at that point (well-nested cell markup). -/
def cellStartsGuarded : State → List Event → Bool
  | _, [] => true
  | st, e :: es => cellStartGuardOk st e && cellStartsGuarded (step st e) es

/-- The events of one td cell with plain text `c`. -/
def cellEvents (c : String) : List Event :=
  [.startTag "td", .text c, .endTag "td"]

/-- The events of one tr row made of td cells with the given texts. -/
def rowEvents (cells : List String) : List Event :=
  .startTag "tr" :: (cells.flatMap cellEvents ++ [.endTag "tr"])

/-- The events of a table with neither thead nor tbody, rows given as lists
of cell texts. -/
def tableEvents (rws : List (List String)) : List Event :=
  .startTag "table" :: (rws.flatMap rowEvents ++ [.endTag "table"])

/-- The events of a table whose rows all sit inside a tbody and that has no
thead. -/
def tbodyTableEvents (rws : List (List String)) : List Event :=
  .startTag "table" :: .startTag "tbody" ::
    (rws.flatMap rowEvents ++ [.endTag "tbody", .endTag "table"])

/-- Cell-wise strip, the transformation each cell text undergoes before
entering the row. -/
def stripRow (r : List String) : List String :=
  r.map pyStrip

/-- Whether a row of cell texts survives the blank-row filter. -/
def rowNonBlank (r : List String) : Bool :=
  !r.isEmpty && r.any (fun c => pyStrip c != "")

/-- The non-blank rows of a table, each cell stripped: the material the
parser keeps. -/
def nonBlankRows (rws : List (List String)) : List (List String) :=
  (rws.filter rowNonBlank).map stripRow

/-- The padding applied by `save_table_to_csv` to one row: empty strings
appended until the row is as long as the headers (no-op on longer rows). -/
def pad_row (headers row : List String) : List String :=
  row ++ List.replicate (headers.length - row.length) ""

/-- The caller's `rows` argument after `save_table_to_csv` returns, on the
successful path: the while-loop appends empty strings in place to every row
shorter than the headers (only when headers exist); the truncation of long
rows rebinds a local name and leaves the caller's lists untouched. -/
def save_table_to_csv_rows_after (headers : List String)
    (rows : List (List String)) : List (List String) :=
  if headers.isEmpty then rows else rows.map (pad_row headers)

/-- The caller's `headers` argument after `save_table_to_csv` returns: the
function never writes to it. -/
def save_table_to_csv_headers_after (headers : List String)
    (_rows : List (List String)) : List String :=
  headers

/-- The blank cell text of the empty first table occurrence in the
retargeting witness. -/
def c3_blank_cell : String := " "

lemma map_eq_self_mem {α : Type} {f : α → α} :
    ∀ {l : List α}, l.map f = l → ∀ a ∈ l, f a = a := by
  intro l
  induction l with
  | nil => intro _ a ha; cases ha
  | cons b t ih =>
    intro h a ha
    rw [List.map_cons, List.cons.injEq] at h
    rcases List.mem_cons.mp ha with rfl | hm
    · exact h.1
    · exact ih h.2 a hm

/-- C1: the claim that a cell holding exactly one nested meaningful element
with non-blank text resolves to that element's trimmed text even when
additional direct text is present fails on the code: the nested-element
branch of `handle_starttag` is shadowed by the `in_table` branch, so for the
cell `<td><div>A</div> x</td>` the resolved content is the trimmed raw
buffer `A x`, not `A`.  This theorem evaluates the full pipeline at that
failing input. -/
theorem c1_nested_priority_dead_eval :
    extractFromString c1_failing_input = (["A x"], []) := by rfl

set_option maxRecDepth 8192 in
/-- C2: concrete scenario 1 does not produce the rows the spec states: the
cells holding two sibling divs resolve to the concatenation of both texts
(`30thirty`, `25twenty-five`) instead of the first div's text, because
nested-element capture is unreachable inside the target table.  This theorem
evaluates the full pipeline at the scenario input. -/
theorem c2_scenario1_eval :
    extractFromString scenario1_input =
      (["Name", "Age", "City"],
       [["John Doe", "30thirty", "New York"],
        ["Jane Smith", "25twenty-five", "Los Angeles"]]) := by rfl

/-- C4 counterexample: when the tokenizer fails, the entry point does not
propagate the error; it returns the empty result, the very same value the
no-table outcome produces, so the two outcomes are not distinct. -/
theorem c4_counterexample :
    extract_first_table_from_html malformedTokenStream = ([], []) ∧
    extract_first_table_from_html (Except.ok []) = ([], []) :=
  ⟨rfl, rfl⟩

/-- C4 amended: for every tokenizer failure, `extract_first_table_from_html`
catches the exception and returns the empty result `([], [])` instead of
propagating a malformed-input error. -/
theorem c4_tokenizer_failure_returns_empty (msg : String) :
    extract_first_table_from_html (Except.error msg) = ([], []) := rfl

/-- C6 counterexample: a table with no thead whose rows sit in a tbody: the
first non-blank row is not recorded as header (headers stay empty); both
rows are recorded as data. -/
theorem c6_counterexample :
    extractFromString c6_failing_input = ([], [["A"], ["B"]]) := by rfl

/-- C7 counterexample: feeding the event sequence of a th start tag arriving
while a td cell is still open leaves both cell flags set at once. -/
theorem c7_counterexample :
    (run initState c7_failing_events).in_th = true ∧
    (run initState c7_failing_events).in_td = true :=
  ⟨rfl, rfl⟩

/-- C10: with non-empty headers, `save_table_to_csv` leaves the caller's
headers untouched and pads each row shorter than the headers in place with
empty strings up to the header width (so the caller's rows argument is
mutated whenever such a short row exists), while rows at least as long as
the headers are left unchanged in the caller's list. -/
theorem c10_save_csv_mutates_rows (headers : List String)
    (rows : List (List String)) (h : headers ≠ []) :
    save_table_to_csv_headers_after headers rows = headers ∧
    save_table_to_csv_rows_after headers rows = rows.map (pad_row headers) ∧
    (∀ r ∈ rows, r.length < headers.length →
      pad_row headers r = r ++ List.replicate (headers.length - r.length) "" ∧
      (pad_row headers r).length = headers.length) ∧
    (∀ r ∈ rows, headers.length ≤ r.length → pad_row headers r = r) ∧
    ((∃ r ∈ rows, r.length < headers.length) →
      save_table_to_csv_rows_after headers rows ≠ rows) := by
  have hne : headers.isEmpty = false := by
    simp [List.isEmpty_iff, h]
  refine ⟨rfl, ?_, ?_, ?_, ?_⟩
  · simp [save_table_to_csv_rows_after, hne]
  · intro r _ hlt
    refine ⟨rfl, ?_⟩
    simp only [pad_row, List.length_append, List.length_replicate]
    omega
  · intro r _ hle
    simp [pad_row, Nat.sub_eq_zero_of_le hle]
  · rintro ⟨r, hr, hlt⟩ heq
    rw [save_table_to_csv_rows_after, if_neg (by simp [hne])] at heq
    have hpad : pad_row headers r = r := map_eq_self_mem heq r hr
    have : (pad_row headers r).length = r.length := by rw [hpad]
    simp only [pad_row, List.length_append, List.length_replicate] at this
    omega

/-- C10 witness: a concrete call with two headers and one short row. -/
theorem c10_save_csv_mutates_rows_witness :
    save_table_to_csv_headers_after ["a", "b"] [["x"]] = ["a", "b"] ∧
    save_table_to_csv_rows_after ["a", "b"] [["x"]] =
      [["x"]].map (pad_row ["a", "b"]) ∧
    (∀ r ∈ [["x"]], r.length < (["a", "b"] : List String).length →
      pad_row ["a", "b"] r =
        r ++ List.replicate ((["a", "b"] : List String).length - r.length) "" ∧
      (pad_row ["a", "b"] r).length = (["a", "b"] : List String).length) ∧
    (∀ r ∈ [["x"]], (["a", "b"] : List String).length ≤ r.length →
      pad_row ["a", "b"] r = r) ∧
    ((∃ r ∈ [["x"]], r.length < (["a", "b"] : List String).length) →
      save_table_to_csv_rows_after ["a", "b"] [["x"]] ≠ [["x"]]) :=
  c10_save_csv_mutates_rows ["a", "b"] [["x"]] (by decide)

lemma step_failed (st : State) (e : Event) (hf : st.failed = true) :
    step st e = st := by
  unfold step
  rw [hf]
  rfl

lemma step_startTag (st : State) (tag : String) (hf : st.failed = false) :
    step st (.startTag tag) = handle_starttag st tag := by
  unfold step
  rw [hf]
  rfl

lemma step_endTag (st : State) (tag : String) (hf : st.failed = false) :
    step st (.endTag tag) = handle_endtag st tag := by
  unfold step
  rw [hf]
  rfl

lemma step_text (st : State) (d : String) (hf : st.failed = false) :
    step st (.text d) = handle_data st d := by
  unfold step
  rw [hf]
  rfl

lemma step_entityRef (st : State) (name : String) (hf : st.failed = false) :
    step st (.entityRef name) = handle_entityref st name := by
  unfold step
  rw [hf]
  rfl

lemma step_charRef (st : State) (name : String) (hf : st.failed = false) :
    step st (.charRef name) = handle_charref st name := by
  unfold step
  rw [hf]
  rfl

lemma tc_cell_data (st : State) (d : String) :
    (handle_cell_data st d).table_count = st.table_count := by
  simp only [handle_cell_data]
  split_ifs <;> rfl

lemma tc_content_start (st : State) (tag : String) :
    (handle_table_content_start st tag).table_count = st.table_count := by
  simp only [handle_table_content_start, handle_row_start,
    handle_header_cell_start, handle_data_cell_start, reset_cell_state]
  split_ifs <;> rfl

lemma tc_content_end (st : State) (tag : String) :
    (handle_table_content_end st tag).table_count = st.table_count := by
  simp only [handle_table_content_end, handle_row_end, add_header_row,
    add_data_row, handle_header_cell_end, handle_data_cell_end,
    get_final_cell_content, reset_cell_state]
  split_ifs <;> rfl

lemma tc_nested_start (st : State) (tag : String) :
    (handle_nested_element_start st tag).table_count = st.table_count := by
  simp only [handle_nested_element_start]
  split_ifs <;> rfl

lemma tc_nested_end (st : State) (tag : String) :
    (handle_nested_element_end st tag).table_count = st.table_count := by
  unfold handle_nested_element_end
  split
  · dsimp only
    split_ifs <;> rfl
  · rfl

lemma tc_table_end (st : State) :
    (handle_table_end st).table_count = st.table_count := by
  unfold handle_table_end
  split_ifs <;> rfl

lemma step_table_count_eq (st : State) (e : Event)
    (h : isTableStartEvent e = false) :
    (step st e).table_count = st.table_count := by
  cases hf : st.failed with
  | true => rw [step_failed st e hf]
  | false =>
    cases e with
    | startTag tag =>
      rw [step_startTag st tag hf]
      simp only [isTableStartEvent, decide_eq_false_iff_not] at h
      unfold handle_starttag
      rw [if_neg h]
      split_ifs
      · exact tc_content_start st tag
      · exact tc_nested_start st tag
      · rfl
    | endTag tag =>
      rw [step_endTag st tag hf]
      unfold handle_endtag
      split_ifs
      · exact tc_table_end st
      · exact tc_content_end st tag
      · exact tc_nested_end st tag
      · rfl
    | text d =>
      rw [step_text st d hf]
      unfold handle_data
      split_ifs
      · exact tc_cell_data st d
      · rfl
    | entityRef name =>
      rw [step_entityRef st name hf]
      unfold handle_entityref
      split_ifs
      · exact tc_cell_data st _
      · rfl
    | charRef name =>
      rw [step_charRef st name hf]
      unfold handle_charref
      split_ifs
      · split
        · split_ifs
          · exact tc_cell_data st _
          · rfl
        · rfl
      · rfl

lemma run_table_count_eq :
    ∀ (es : List Event) (st : State),
      (∀ e ∈ es, isTableStartEvent e = false) →
      (run st es).table_count = st.table_count := by
  intro es
  induction es with
  | nil => intro st _; rfl
  | cons e es ih =>
    intro st h
    have : run st (e :: es) = run (step st e) es := rfl
    rw [this, ih (step st e) (fun x hx => h x (List.mem_cons_of_mem e hx)),
      step_table_count_eq st e (h e (List.mem_cons_self e es))]

/-- C5: for every event stream without a table start tag (in particular the
empty input), the extraction entry point returns the empty result and no
error: `table_count` stays zero, so `extract_first_table_from_html` takes
its no-table early return. -/
theorem c5_no_table_returns_empty (es : List Event)
    (h : ∀ e ∈ es, isTableStartEvent e = false) :
    extractEvents es = ([], []) := by
  have hc : (run initState es).table_count = 0 :=
    run_table_count_eq es initState h
  unfold extractEvents
  simp only [hc]
  split <;> rfl

/-- C5 witness: a concrete table-free event stream. -/
theorem c5_no_table_returns_empty_witness :
    extractEvents c5_witness_events = ([], []) :=
  c5_no_table_returns_empty c5_witness_events (by decide)

lemma occursP1_cons {c : Char} {cs : List Char}
    (h : occursP1 (c :: cs) = false) :
    matchP1 (c :: cs) = none ∧ occursP1 cs = false := by
  unfold occursP1 at h ⊢
  rw [List.tails_cons, List.any_cons, Bool.or_eq_false_iff] at h
  refine ⟨?_, h.2⟩
  cases hm : matchP1 (c :: cs) with
  | none => rfl
  | some v => rw [hm] at h; simp at h

lemma occursP2_cons {c : Char} {cs : List Char}
    (h : occursP2 (c :: cs) = false) :
    matchP2 (c :: cs) = none ∧ occursP2 cs = false := by
  unfold occursP2 at h ⊢
  rw [List.tails_cons, List.any_cons, Bool.or_eq_false_iff] at h
  refine ⟨?_, h.2⟩
  cases hm : matchP2 (c :: cs) with
  | none => rfl
  | some v => rw [hm] at h; simp at h

lemma occursP3_cons {c : Char} {cs : List Char}
    (h : occursP3 (c :: cs) = false) :
    matchP3 (c :: cs) = none ∧ occursP3 cs = false := by
  unfold occursP3 at h ⊢
  rw [List.tails_cons, List.any_cons, Bool.or_eq_false_iff] at h
  refine ⟨?_, h.2⟩
  cases hm : matchP3 (c :: cs) with
  | none => rfl
  | some v => rw [hm] at h; simp at h

lemma sub1Aux_eq_self :
    ∀ (fuel : Nat) (l : List Char), occursP1 l = false →
      sub1Aux fuel l = l := by
  intro fuel
  induction fuel with
  | zero => intro l _; rfl
  | succ n ih =>
    intro l h
    cases l with
    | nil => rfl
    | cons c cs =>
      obtain ⟨h1, h2⟩ := occursP1_cons h
      unfold sub1Aux
      rw [h1]
      show c :: sub1Aux n cs = c :: cs
      rw [ih cs h2]

lemma sub2Aux_eq_self :
    ∀ (fuel : Nat) (l : List Char), occursP2 l = false →
      sub2Aux fuel l = l := by
  intro fuel
  induction fuel with
  | zero => intro l _; rfl
  | succ n ih =>
    intro l h
    cases l with
    | nil => rfl
    | cons c cs =>
      obtain ⟨h1, h2⟩ := occursP2_cons h
      unfold sub2Aux
      rw [h1]
      show c :: sub2Aux n cs = c :: cs
      rw [ih cs h2]

lemma sub3Aux_eq_self :
    ∀ (fuel : Nat) (l : List Char), occursP3 l = false →
      sub3Aux fuel l = l := by
  intro fuel
  induction fuel with
  | zero => intro l _; rfl
  | succ n ih =>
    intro l h
    cases l with
    | nil => rfl
    | cons c cs =>
      obtain ⟨h1, h2⟩ := occursP3_cons h
      unfold sub3Aux
      rw [h1]
      show c :: sub3Aux n cs = c :: cs
      rw [ih cs h2]

/-- C8: `clean_malformed_html` is the identity on every input text in which
none of the three malformed-markup patterns occur; as a total function it
cannot fail on any input. -/
theorem c8_clean_no_pattern_id (s : String)
    (h1 : occursP1 s.data = false) (h2 : occursP2 s.data = false)
    (h3 : occursP3 s.data = false) :
    clean_malformed_html s = s := by
  obtain ⟨d⟩ := s
  unfold clean_malformed_html
  split
  · rfl
  · show String.mk (sub3Aux _ (sub2Aux _ (sub1Aux _ d))) = String.mk d
    rw [sub1Aux_eq_self _ _ h1, sub2Aux_eq_self _ _ h2,
      sub3Aux_eq_self _ _ h3]

/-- C8 witness: a concrete pattern-free input passes through unchanged. -/
theorem c8_clean_no_pattern_id_witness :
    clean_malformed_html c8_witness_input = c8_witness_input :=
  c8_clean_no_pattern_id c8_witness_input (by rfl) (by rfl) (by rfl)



lemma shift_handle_table_start (st : State) :
    handle_table_start (shiftState st) = shiftState (handle_table_start st) := by
  obtain ⟨it, ith, itb, itr, ihh, itd, cr, cc, hd, rs, tc, stk, ncn, fnc, hnc, tt, fl⟩ := st
  unfold handle_table_start shiftState
  dsimp only
  by_cases h : tc + 1 = tt
  · rw [if_pos h, if_pos (by omega)]
  · rw [if_neg h, if_neg (by omega)]

lemma shift_content_start (st : State) (tag : String) :
    handle_table_content_start (shiftState st) tag =
      shiftState (handle_table_content_start st tag) := by
  obtain ⟨it, ith, itb, itr, ihh, itd, cr, cc, hd, rs, tc, stk, ncn, fnc, hnc, tt, fl⟩ := st
  unfold handle_table_content_start handle_row_start handle_header_cell_start
    handle_data_cell_start reset_cell_state shiftState
  dsimp only
  split_ifs <;> rfl

lemma shift_nested_start (st : State) (tag : String) :
    handle_nested_element_start (shiftState st) tag =
      shiftState (handle_nested_element_start st tag) := by
  obtain ⟨it, ith, itb, itr, ihh, itd, cr, cc, hd, rs, tc, stk, ncn, fnc, hnc, tt, fl⟩ := st
  unfold handle_nested_element_start shiftState
  dsimp only
  split_ifs <;> rfl

lemma shift_starttag (st : State) (tag : String) :
    handle_starttag (shiftState st) tag = shiftState (handle_starttag st tag) := by
  unfold handle_starttag
  by_cases h1 : tag = "table"
  · rw [if_pos h1, if_pos h1, shift_handle_table_start]
  · rw [if_neg h1, if_neg h1]
    by_cases h2 : st.in_table
    · rw [if_pos (show (shiftState st).in_table = true from h2), if_pos h2,
        shift_content_start]
    · rw [if_neg (show ¬(shiftState st).in_table = true from h2),
        if_neg h2]
      by_cases h3 : (is_in_cell st && meaningful_tags.contains tag) = true
      · rw [if_pos (show (is_in_cell (shiftState st) && meaningful_tags.contains tag) = true from h3),
          if_pos h3, shift_nested_start]
      · rw [if_neg (show ¬(is_in_cell (shiftState st) && meaningful_tags.contains tag) = true from h3),
          if_neg h3]

lemma shift_table_end (st : State) :
    handle_table_end (shiftState st) = shiftState (handle_table_end st) := by
  obtain ⟨it, ith, itb, itr, ihh, itd, cr, cc, hd, rs, tc, stk, ncn, fnc, hnc, tt, fl⟩ := st
  unfold handle_table_end shiftState
  dsimp only
  split_ifs <;> rfl

lemma shift_content_end (st : State) (tag : String) :
    handle_table_content_end (shiftState st) tag =
      shiftState (handle_table_content_end st tag) := by
  obtain ⟨it, ith, itb, itr, ihh, itd, cr, cc, hd, rs, tc, stk, ncn, fnc, hnc, tt, fl⟩ := st
  unfold handle_table_content_end handle_row_end add_header_row add_data_row
    is_header_row row_has_content handle_header_cell_end handle_data_cell_end
    get_final_cell_content determine_cell_content reset_cell_state shiftState
  dsimp only
  split_ifs <;> rfl

lemma shift_nested_end (st : State) (tag : String) :
    handle_nested_element_end (shiftState st) tag =
      shiftState (handle_nested_element_end st tag) := by
  obtain ⟨it, ith, itb, itr, ihh, itd, cr, cc, hd, rs, tc, stk, ncn, fnc, hnc, tt, fl⟩ := st
  unfold handle_nested_element_end shiftState
  dsimp only
  cases stk with
  | nil => rfl
  | cons top restStack =>
    dsimp only
    split_ifs <;> rfl

lemma shift_endtag (st : State) (tag : String) :
    handle_endtag (shiftState st) tag = shiftState (handle_endtag st tag) := by
  unfold handle_endtag
  by_cases h1 : (decide (tag = "table") && st.in_table) = true
  · rw [if_pos (show (decide (tag = "table") && (shiftState st).in_table) = true from h1),
      if_pos h1, shift_table_end]
  · rw [if_neg (show ¬(decide (tag = "table") && (shiftState st).in_table) = true from h1),
      if_neg h1]
    by_cases h2 : st.in_table
    · rw [if_pos (show (shiftState st).in_table = true from h2), if_pos h2,
        shift_content_end]
    · rw [if_neg (show ¬(shiftState st).in_table = true from h2), if_neg h2]
      by_cases h3 : (is_in_cell st && meaningful_tags.contains tag) = true
      · rw [if_pos (show (is_in_cell (shiftState st) && meaningful_tags.contains tag) = true from h3),
          if_pos h3, shift_nested_end]
      · rw [if_neg (show ¬(is_in_cell (shiftState st) && meaningful_tags.contains tag) = true from h3),
          if_neg h3]

lemma shift_cell_data (st : State) (d : String) :
    handle_cell_data (shiftState st) d = shiftState (handle_cell_data st d) := by
  obtain ⟨it, ith, itb, itr, ihh, itd, cr, cc, hd, rs, tc, stk, ncn, fnc, hnc, tt, fl⟩ := st
  unfold handle_cell_data shiftState
  dsimp only
  split_ifs <;> rfl

lemma shift_handle_data (st : State) (d : String) :
    handle_data (shiftState st) d = shiftState (handle_data st d) := by
  unfold handle_data
  by_cases h : is_in_cell st = true
  · rw [if_pos (show is_in_cell (shiftState st) = true from h), if_pos h,
      shift_cell_data]
  · rw [if_neg (show ¬is_in_cell (shiftState st) = true from h), if_neg h]

lemma shift_entityref (st : State) (name : String) :
    handle_entityref (shiftState st) name =
      shiftState (handle_entityref st name) := by
  unfold handle_entityref
  by_cases h : is_in_cell st = true
  · rw [if_pos (show is_in_cell (shiftState st) = true from h), if_pos h,
      shift_cell_data]
  · rw [if_neg (show ¬is_in_cell (shiftState st) = true from h), if_neg h]

lemma shift_charref (st : State) (name : String) :
    handle_charref (shiftState st) name =
      shiftState (handle_charref st name) := by
  unfold handle_charref
  by_cases h : is_in_cell st = true
  · rw [if_pos (show is_in_cell (shiftState st) = true from h), if_pos h]
    cases hd : decode_char_reference name with
    | none =>
      obtain ⟨it, ith, itb, itr, ihh, itd, cr, cc, hdr, rs, tc, stk, ncn, fnc, hnc, tt, fl⟩ := st
      rfl
    | some n =>
      dsimp only
      split_ifs with hv
      · exact shift_cell_data st _
      · obtain ⟨it, ith, itb, itr, ihh, itd, cr, cc, hdr, rs, tc, stk, ncn, fnc, hnc, tt, fl⟩ := st
        rfl
  · rw [if_neg (show ¬is_in_cell (shiftState st) = true from h), if_neg h]

lemma step_shift (st : State) (e : Event) :
    step (shiftState st) e = shiftState (step st e) := by
  cases hf : st.failed with
  | true =>
    rw [step_failed st e hf, step_failed (shiftState st) e hf]
  | false =>
    cases e with
    | startTag tag =>
      rw [step_startTag st tag hf, step_startTag (shiftState st) tag hf,
        shift_starttag]
    | endTag tag =>
      rw [step_endTag st tag hf, step_endTag (shiftState st) tag hf,
        shift_endtag]
    | text d =>
      rw [step_text st d hf, step_text (shiftState st) d hf, shift_handle_data]
    | entityRef name =>
      rw [step_entityRef st name hf, step_entityRef (shiftState st) name hf,
        shift_entityref]
    | charRef name =>
      rw [step_charRef st name hf, step_charRef (shiftState st) name hf,
        shift_charref]

lemma run_shift :
    ∀ (es : List Event) (st : State),
      run (shiftState st) es = shiftState (run st es) := by
  intro es
  induction es with
  | nil => intro st; rfl
  | cons e es ih =>
    intro st
    show run (step (shiftState st) e) es = shiftState (run (step st e) es)
    rw [step_shift, ih]



lemma run_cons (st : State) (e : Event) (es : List Event) :
    run st (e :: es) = run (step st e) es := rfl

lemma run_cellEvents (st : State) (c : String)
    (hf : st.failed = false) (htab : st.in_table = true) (htr : st.in_tr = true)
    (hcc : st.current_cell = "") (hstk : st.nested_element_stack = [])
    (hncn : st.nested_content = "") (hfnc : st.first_nested_content = "")
    (hhnc : st.has_nested_content = false) (htd : st.in_td = false) :
    run st (cellEvents c) =
      { st with current_row := st.current_row ++ [pyStrip c] } := by
  obtain ⟨it, ith, itb, itr, ihh, itd, cr, cc, hd, rs, tc, stk, ncn, fnc, hnc, tt, fl⟩ := st
  dsimp only at hf htab htr hcc hstk hncn hfnc hhnc htd ⊢
  subst hf htab htr hcc hstk hncn hfnc hhnc htd
  show run _ [.startTag "td", .text c, .endTag "td"] = _
  rw [run_cons, step_startTag _ _ rfl]
  have s1 : handle_starttag
      ⟨true, ith, itb, true, ihh, false, cr, "", hd, rs, tc, [], "", "", false, tt, false⟩
      "td" =
      ⟨true, ith, itb, true, ihh, true, cr, "", hd, rs, tc, [], "", "", false, tt, false⟩ := by
    simp [handle_starttag, handle_table_content_start, handle_data_cell_start,
      reset_cell_state]
  rw [s1, run_cons, step_text _ _ rfl]
  have s2 : handle_data
      ⟨true, ith, itb, true, ihh, true, cr, "", hd, rs, tc, [], "", "", false, tt, false⟩ c =
      ⟨true, ith, itb, true, ihh, true, cr, c, hd, rs, tc, [], "", "", false, tt, false⟩ := by
    simp [handle_data, is_in_cell, handle_cell_data]
  rw [s2, run_cons, step_endTag _ _ rfl]
  have s3 : handle_endtag
      ⟨true, ith, itb, true, ihh, true, cr, c, hd, rs, tc, [], "", "", false, tt, false⟩
      "td" =
      ⟨true, ith, itb, true, ihh, false, cr ++ [pyStrip c], "", hd, rs, tc, [], "", "", false, tt, false⟩ := by
    simp [handle_endtag, handle_table_content_end, handle_data_cell_end,
      get_final_cell_content, determine_cell_content, reset_cell_state]
  rw [s3]
  rfl

lemma run_singleton (st : State) (e : Event) :
    run st [e] = step st e := rfl

lemma run_append (st : State) (es fs : List Event) :
    run st (es ++ fs) = run (run st es) fs := by
  unfold run
  exact List.foldl_append step st es fs

lemma run_cellsFold :
    ∀ (cells : List String) (st : State),
      st.failed = false → st.in_table = true → st.in_tr = true →
      st.current_cell = "" → st.nested_element_stack = [] →
      st.nested_content = "" → st.first_nested_content = "" →
      st.has_nested_content = false → st.in_td = false →
      run st (cells.flatMap cellEvents) =
        { st with current_row := st.current_row ++ stripRow cells } := by
  intro cells
  induction cells with
  | nil =>
    intro st _ _ _ _ _ _ _ _ _
    show st = _
    rw [show stripRow [] = [] from rfl, List.append_nil]
  | cons c cs ih =>
    intro st hf htab htr hcc hstk hncn hfnc hhnc htd
    rw [show (c :: cs).flatMap cellEvents = cellEvents c ++ cs.flatMap cellEvents from rfl,
      run_append, run_cellEvents st c hf htab htr hcc hstk hncn hfnc hhnc htd]
    have hrec := ih { st with current_row := st.current_row ++ [pyStrip c] }
      hf htab htr hcc hstk hncn hfnc hhnc htd
    rw [hrec]
    simp [stripRow, List.append_assoc]

lemma mem_dropWhile_of (p : Char → Bool) (c : Char) :
    ∀ (l : List Char), c ∈ l → p c = false → c ∈ l.dropWhile p := by
  intro l
  induction l with
  | nil => intro h; cases h
  | cons a t ih =>
    intro hm hp
    by_cases ha : p a
    · rw [List.dropWhile_cons_of_pos ha]
      rcases List.mem_cons.mp hm with rfl | h
      · rw [hp] at ha; cases ha
      · exact ih h hp
    · rw [List.dropWhile_cons_of_neg ha]
      exact hm

lemma mem_pyStripList (c : Char) (l : List Char)
    (hm : c ∈ l) (hp : isPySpace c = false) : c ∈ pyStripList l := by
  unfold pyStripList
  rw [List.mem_reverse]
  refine mem_dropWhile_of _ _ _ ?_ hp
  rw [List.mem_reverse]
  exact mem_dropWhile_of _ _ _ hm hp

lemma exists_nonspace_of_stripped_ne (l : List Char)
    (h : pyStripList l ≠ []) :
    ∃ c ∈ pyStripList l, isPySpace c = false := by
  have hrev : (pyStripList l).reverse =
      List.dropWhile isPySpace ((List.dropWhile isPySpace l).reverse) := by
    unfold pyStripList
    rw [List.reverse_reverse]
  have hne : (pyStripList l).reverse ≠ [] := by
    simpa using h
  rw [hrev] at hne
  refine ⟨(List.dropWhile isPySpace
      ((List.dropWhile isPySpace l).reverse)).head hne, ?_, ?_⟩
  · have hm : (List.dropWhile isPySpace
        ((List.dropWhile isPySpace l).reverse)).head hne ∈
        (pyStripList l).reverse := by
      rw [hrev]
      exact List.head_mem hne
    exact List.mem_reverse.mp hm
  · exact List.head_dropWhile_not isPySpace _ hne

lemma pyStrip_pyStrip_ne (s : String) :
    (pyStrip (pyStrip s) != "") = (pyStrip s != "") := by
  by_cases h : pyStrip s = ""
  · rw [h]
    rfl
  · have h2 : pyStrip (pyStrip s) ≠ "" := by
      intro hc
      have hl : pyStripList s.data ≠ [] := by
        intro he
        apply h
        unfold pyStrip
        rw [he]
      obtain ⟨c, hm, hp⟩ := exists_nonspace_of_stripped_ne s.data hl
      have : c ∈ pyStripList (pyStripList s.data) :=
        mem_pyStripList c _ hm hp
      rw [show pyStripList (pyStripList s.data) = (pyStrip (pyStrip s)).data from rfl,
        hc] at this
      cases this
    rw [bne_iff_ne.mpr h2, bne_iff_ne.mpr h]

lemma rowNonBlank_strip_eq (cells : List String) :
    (!(stripRow cells).isEmpty &&
      (stripRow cells).any (fun cell => pyStrip cell != "")) =
      rowNonBlank cells := by
  unfold rowNonBlank stripRow
  rw [List.any_map]
  have h1 : ((fun cell => pyStrip cell != "") ∘ pyStrip) =
      (fun c => pyStrip c != "") := by
    funext a
    simp only [Function.comp]
    exact pyStrip_pyStrip_ne a
  rw [h1]
  cases cells <;> rfl

lemma run_rowEvents_core (st : State) (cells : List String)
    (hf : st.failed = false) (htab : st.in_table = true)
    (hth : st.in_th = false) (htd : st.in_td = false)
    (hcr : st.current_row = []) (hcc : st.current_cell = "")
    (hstk : st.nested_element_stack = []) (hncn : st.nested_content = "")
    (hfnc : st.first_nested_content = "") (hhnc : st.has_nested_content = false) :
    run st (rowEvents cells) =
      handle_row_end { st with in_tr := true, current_row := stripRow cells } := by
  obtain ⟨it, ith, itb, itr, ihh, itd, cr, cc, hd, rs, tc, stk, ncn, fnc, hnc, tt, fl⟩ := st
  dsimp only at hf htab hth htd hcr hcc hstk hncn hfnc hhnc ⊢
  subst hf htab hth htd hcr hcc hstk hncn hfnc hhnc
  show run _ (.startTag "tr" :: (cells.flatMap cellEvents ++ [.endTag "tr"])) = _
  rw [run_cons, step_startTag _ _ rfl]
  have s1 : handle_starttag
      ⟨true, ith, itb, itr, false, false, [], "", hd, rs, tc, [], "", "", false, tt, false⟩
      "tr" =
      ⟨true, ith, itb, true, false, false, [], "", hd, rs, tc, [], "", "", false, tt, false⟩ := by
    simp [handle_starttag, handle_table_content_start, handle_row_start]
  rw [s1, run_append,
    run_cellsFold cells _ rfl rfl rfl rfl rfl rfl rfl rfl rfl,
    run_singleton, step_endTag _ _ rfl]
  have s2 : handle_endtag
      ⟨true, ith, itb, true, false, false, [] ++ stripRow cells, "", hd, rs, tc, [], "", "", false, tt, false⟩
      "tr" =
      handle_row_end
      ⟨true, ith, itb, true, false, false, stripRow cells, "", hd, rs, tc, [], "", "", false, tt, false⟩ := by
    simp [handle_endtag, handle_table_content_end]
  exact s2

lemma run_rowEvents_blank (st : State) (cells : List String)
    (hf : st.failed = false) (htab : st.in_table = true)
    (hth : st.in_th = false) (htd : st.in_td = false)
    (htr : st.in_tr = false)
    (hcr : st.current_row = []) (hcc : st.current_cell = "")
    (hstk : st.nested_element_stack = []) (hncn : st.nested_content = "")
    (hfnc : st.first_nested_content = "") (hhnc : st.has_nested_content = false)
    (hnb : rowNonBlank cells = false) :
    run st (rowEvents cells) = st := by
  rw [run_rowEvents_core st cells hf htab hth htd hcr hcc hstk hncn hfnc hhnc]
  obtain ⟨it, ith, itb, itr, ihh, itd, cr, cc, hd, rs, tc, stk, ncn, fnc, hnc, tt, fl⟩ := st
  dsimp only at hf htab hth htd htr hcr hcc hstk hncn hfnc hhnc ⊢
  subst hf htab hth htd htr hcr hcc hstk hncn hfnc hhnc
  simp only [handle_row_end, row_has_content]
  rw [rowNonBlank_strip_eq cells, hnb]
  rfl

lemma run_rowEvents_header (st : State) (cells : List String)
    (hf : st.failed = false) (htab : st.in_table = true)
    (hth : st.in_th = false) (htd : st.in_td = false)
    (htr : st.in_tr = false) (hith : st.in_thead = false)
    (hitb : st.in_tbody = false) (hhd : st.headers = [])
    (hcr : st.current_row = []) (hcc : st.current_cell = "")
    (hstk : st.nested_element_stack = []) (hncn : st.nested_content = "")
    (hfnc : st.first_nested_content = "") (hhnc : st.has_nested_content = false)
    (hnb : rowNonBlank cells = true) :
    run st (rowEvents cells) = { st with headers := stripRow cells } := by
  rw [run_rowEvents_core st cells hf htab hth htd hcr hcc hstk hncn hfnc hhnc]
  obtain ⟨it, ith, itb, itr, ihh, itd, cr, cc, hd, rs, tc, stk, ncn, fnc, hnc, tt, fl⟩ := st
  dsimp only at hf htab hth htd htr hith hitb hhd hcr hcc hstk hncn hfnc hhnc ⊢
  subst hf htab hth htd htr hith hitb hhd hcr hcc hstk hncn hfnc hhnc
  simp only [handle_row_end, row_has_content, is_header_row, add_header_row]
  rw [rowNonBlank_strip_eq cells, hnb]
  rfl

lemma run_rowEvents_data_tbody (st : State) (cells : List String)
    (hf : st.failed = false) (htab : st.in_table = true)
    (hth : st.in_th = false) (htd : st.in_td = false)
    (htr : st.in_tr = false) (hith : st.in_thead = false)
    (hitb : st.in_tbody = true)
    (hcr : st.current_row = []) (hcc : st.current_cell = "")
    (hstk : st.nested_element_stack = []) (hncn : st.nested_content = "")
    (hfnc : st.first_nested_content = "") (hhnc : st.has_nested_content = false)
    (hnb : rowNonBlank cells = true) :
    run st (rowEvents cells) = { st with rows := st.rows ++ [stripRow cells] } := by
  rw [run_rowEvents_core st cells hf htab hth htd hcr hcc hstk hncn hfnc hhnc]
  obtain ⟨it, ith, itb, itr, ihh, itd, cr, cc, hd, rs, tc, stk, ncn, fnc, hnc, tt, fl⟩ := st
  dsimp only at hf htab hth htd htr hith hitb hcr hcc hstk hncn hfnc hhnc ⊢
  subst hf htab hth htd htr hith hitb hcr hcc hstk hncn hfnc hhnc
  simp only [handle_row_end, row_has_content, is_header_row, add_data_row]
  rw [rowNonBlank_strip_eq cells, hnb]
  simp

lemma run_rowEvents_data_after_header (st : State) (cells : List String)
    (hf : st.failed = false) (htab : st.in_table = true)
    (hth : st.in_th = false) (htd : st.in_td = false)
    (htr : st.in_tr = false) (hith : st.in_thead = false)
    (hitb : st.in_tbody = false) (hhd : st.headers ≠ [])
    (hcr : st.current_row = []) (hcc : st.current_cell = "")
    (hstk : st.nested_element_stack = []) (hncn : st.nested_content = "")
    (hfnc : st.first_nested_content = "") (hhnc : st.has_nested_content = false)
    (hnb : rowNonBlank cells = true) :
    run st (rowEvents cells) = { st with rows := st.rows ++ [stripRow cells] } := by
  rw [run_rowEvents_core st cells hf htab hth htd hcr hcc hstk hncn hfnc hhnc]
  obtain ⟨it, ith, itb, itr, ihh, itd, cr, cc, hd, rs, tc, stk, ncn, fnc, hnc, tt, fl⟩ := st
  dsimp only at hf htab hth htd htr hith hitb hhd hcr hcc hstk hncn hfnc hhnc ⊢
  subst hf htab hth htd htr hith hitb hcr hcc hstk hncn hfnc hhnc
  simp only [handle_row_end, row_has_content, is_header_row, add_data_row]
  rw [rowNonBlank_strip_eq cells, hnb,
    show hd.isEmpty = false from by simp [List.isEmpty_iff, hhd]]
  rfl

lemma nonBlankRows_cons_pos (r : List String) (rs' : List (List String))
    (h : rowNonBlank r = true) :
    nonBlankRows (r :: rs') = stripRow r :: nonBlankRows rs' := by
  simp [nonBlankRows, List.filter_cons, h]

lemma nonBlankRows_cons_neg (r : List String) (rs' : List (List String))
    (h : rowNonBlank r = false) :
    nonBlankRows (r :: rs') = nonBlankRows rs' := by
  simp [nonBlankRows, List.filter_cons, h]

lemma stripRow_isEmpty_false (r : List String) (h : rowNonBlank r = true) :
    (stripRow r).isEmpty = false := by
  cases r with
  | nil => simp [rowNonBlank] at h
  | cons a t => rfl

lemma run_rowsFold_plain :
    ∀ (rws : List (List String)) (st : State),
      st.failed = false → st.in_table = true → st.in_thead = false →
      st.in_tbody = false → st.in_tr = false → st.in_th = false →
      st.in_td = false → st.current_row = [] → st.current_cell = "" →
      st.nested_element_stack = [] → st.nested_content = "" →
      st.first_nested_content = "" → st.has_nested_content = false →
      run st (rws.flatMap rowEvents) =
        (if st.headers.isEmpty then
          (match nonBlankRows rws with
           | [] => st
           | h :: t => { st with headers := h, rows := st.rows ++ t })
         else { st with rows := st.rows ++ nonBlankRows rws }) := by
  intro rws
  induction rws with
  | nil =>
    intro st _ _ _ _ _ _ _ _ _ _ _ _ _
    show st = _
    rw [show nonBlankRows [] = [] from rfl]
    split_ifs <;> simp
  | cons r rs' ih =>
    intro st hf htab hith hitb htr hth htd hcr hcc hstk hncn hfnc hhnc
    rw [show (r :: rs').flatMap rowEvents =
        rowEvents r ++ rs'.flatMap rowEvents from rfl, run_append]
    by_cases hnb : rowNonBlank r = true
    · by_cases hhd : st.headers = []
      · rw [run_rowEvents_header st r hf htab hth htd htr hith hitb hhd hcr
          hcc hstk hncn hfnc hhnc hnb]
        have hrec := ih { st with headers := stripRow r } hf htab hith hitb
          htr hth htd hcr hcc hstk hncn hfnc hhnc
        rw [hrec, nonBlankRows_cons_pos r rs' hnb, hhd]
        simp [stripRow_isEmpty_false r hnb]
      · rw [run_rowEvents_data_after_header st r hf htab hth htd htr hith hitb
          hhd hcr hcc hstk hncn hfnc hhnc hnb]
        have hrec := ih { st with rows := st.rows ++ [stripRow r] } hf htab
          hith hitb htr hth htd hcr hcc hstk hncn hfnc hhnc
        rw [hrec, nonBlankRows_cons_pos r rs' hnb]
        simp [List.isEmpty_iff, hhd, List.append_assoc]
    · have hnb' : rowNonBlank r = false := by
        cases hx : rowNonBlank r
        · rfl
        · exact absurd hx hnb
      rw [run_rowEvents_blank st r hf htab hth htd htr hcr hcc hstk hncn hfnc
        hhnc hnb']
      rw [ih st hf htab hith hitb htr hth htd hcr hcc hstk hncn hfnc hhnc,
        nonBlankRows_cons_neg r rs' hnb']

lemma run_rowsFold_tbody :
    ∀ (rws : List (List String)) (st : State),
      st.failed = false → st.in_table = true → st.in_thead = false →
      st.in_tbody = true → st.in_tr = false → st.in_th = false →
      st.in_td = false → st.current_row = [] → st.current_cell = "" →
      st.nested_element_stack = [] → st.nested_content = "" →
      st.first_nested_content = "" → st.has_nested_content = false →
      run st (rws.flatMap rowEvents) =
        { st with rows := st.rows ++ nonBlankRows rws } := by
  intro rws
  induction rws with
  | nil =>
    intro st _ _ _ _ _ _ _ _ _ _ _ _ _
    show st = _
    rw [show nonBlankRows [] = [] from rfl]
    simp
  | cons r rs' ih =>
    intro st hf htab hith hitb htr hth htd hcr hcc hstk hncn hfnc hhnc
    rw [show (r :: rs').flatMap rowEvents =
        rowEvents r ++ rs'.flatMap rowEvents from rfl, run_append]
    by_cases hnb : rowNonBlank r = true
    · rw [run_rowEvents_data_tbody st r hf htab hth htd htr hith hitb hcr hcc
        hstk hncn hfnc hhnc hnb]
      have hrec := ih { st with rows := st.rows ++ [stripRow r] } hf htab hith
        hitb htr hth htd hcr hcc hstk hncn hfnc hhnc
      rw [hrec, nonBlankRows_cons_pos r rs' hnb]
      simp [List.append_assoc]
    · have hnb' : rowNonBlank r = false := by
        cases hx : rowNonBlank r
        · rfl
        · exact absurd hx hnb
      rw [run_rowEvents_blank st r hf htab hth htd htr hcr hcc hstk hncn hfnc
        hhnc hnb']
      rw [ih st hf htab hith hitb htr hth htd hcr hcc hstk hncn hfnc hhnc,
        nonBlankRows_cons_neg r rs' hnb']

lemma endtable_preserves (st : State) (hf : st.failed = false) :
    (step st (.endTag "table")).headers = st.headers ∧
    (step st (.endTag "table")).rows = st.rows ∧
    (step st (.endTag "table")).table_count = st.table_count ∧
    (step st (.endTag "table")).failed = false := by
  rw [step_endTag st _ hf]
  obtain ⟨it, ith, itb, itr, ihh, itd, cr, cc, hd, rs, tc, stk, ncn, fnc, hnc, tt, fl⟩ := st
  dsimp only at hf
  subst hf
  unfold handle_endtag
  rw [show meaningful_tags.contains (String.mk ['t', 'a', 'b', 'l', 'e']) = false from rfl,
    Bool.and_false]
  unfold handle_table_end handle_table_content_end
  refine ⟨?_, ?_, ?_, ?_⟩ <;> (split_ifs <;> first | rfl | simp_all)

lemma endtbody_eval (st : State) (hf : st.failed = false)
    (htab : st.in_table = true) (htb : st.in_tbody = true) :
    step st (.endTag "tbody") = { st with in_tbody := false } := by
  rw [step_endTag st _ hf]
  obtain ⟨it, ith, itb, itr, ihh, itd, cr, cc, hd, rs, tc, stk, ncn, fnc, hnc, tt, fl⟩ := st
  dsimp only at hf htab htb ⊢
  subst hf htab htb
  simp [handle_endtag, handle_table_content_end]

lemma extract_after_endtable (es : List Event) (st : State)
    (h : run initState es = step st (.endTag "table"))
    (hf : st.failed = false) (hc : st.table_count ≠ 0) :
    extractEvents es = (st.headers, st.rows) := by
  obtain ⟨hh, hr, hcc, hfl⟩ := endtable_preserves st hf
  simp only [extractEvents]
  rw [h, hfl, hh, hr, hcc]
  rw [if_neg hc]
  rfl

lemma extract_after_endtbody_endtable (es : List Event) (st : State)
    (h : run initState es = step (step st (.endTag "tbody")) (.endTag "table"))
    (hf : st.failed = false) (htab : st.in_table = true)
    (htb : st.in_tbody = true) (hc : st.table_count ≠ 0) :
    extractEvents es = (st.headers, st.rows) := by
  rw [endtbody_eval st hf htab htb] at h
  have hext := extract_after_endtable es _ h hf hc
  exact hext

/-- C6 amended: in an extracted table with no thead and no tbody, the first
row with non-blank cell content becomes the header and every other non-blank
row becomes a data row; when the rows of a thead-less table sit inside a
tbody, no header is recorded and every non-blank row becomes a data row. -/
theorem c6_first_row_header_policy (rws : List (List String)) :
    extractEvents (tableEvents rws) =
      (match nonBlankRows rws with
       | [] => ([], [])
       | h :: t => (h, t)) ∧
    extractEvents (tbodyTableEvents rws) = ([], nonBlankRows rws) := by
  constructor
  · have hstep0 : step initState (.startTag "table") =
        { initState with in_table := true, table_count := 1 } := by decide
    have h0 : run initState (tableEvents rws) =
        step (run { initState with in_table := true, table_count := 1 }
          (rws.flatMap rowEvents)) (.endTag "table") := by
      show run (step initState (.startTag "table"))
        (rws.flatMap rowEvents ++ [.endTag "table"]) = _
      rw [hstep0, run_append, run_singleton]
    have hM := run_rowsFold_plain rws
      { initState with in_table := true, table_count := 1 }
      rfl rfl rfl rfl rfl rfl rfl rfl rfl rfl rfl rfl rfl
    rw [if_pos (show ({ initState with in_table := true, table_count := 1 } : State).headers.isEmpty = true from rfl)] at hM
    rw [hM] at h0
    cases hnb : nonBlankRows rws with
    | nil =>
      rw [hnb] at h0
      have hfin : step { initState with in_table := true, table_count := 1 }
          (.endTag "table") =
          { initState with table_count := 1, target_table := 2 } := by decide
      rw [hfin] at h0
      unfold extractEvents
      rw [h0]
      rfl
    | cons h t =>
      rw [hnb] at h0
      have hext := extract_after_endtable (tableEvents rws) _ h0 rfl
        Nat.one_ne_zero
      rw [hext]
      rfl
  · have hstep0 : step (step initState (.startTag "table")) (.startTag "tbody") =
        { initState with in_table := true, table_count := 1, in_tbody := true } := by
      decide
    have h0 : run initState (tbodyTableEvents rws) =
        step (step (run
          { initState with in_table := true, table_count := 1, in_tbody := true }
          (rws.flatMap rowEvents)) (.endTag "tbody")) (.endTag "table") := by
      show run (step (step initState (.startTag "table")) (.startTag "tbody"))
        (rws.flatMap rowEvents ++ [.endTag "tbody", .endTag "table"]) = _
      rw [hstep0, run_append, run_cons, run_singleton]
    have hN := run_rowsFold_tbody rws
      { initState with in_table := true, table_count := 1, in_tbody := true }
      rfl rfl rfl rfl rfl rfl rfl rfl rfl rfl rfl rfl rfl
    rw [hN] at h0
    have hext := extract_after_endtbody_endtable (tbodyTableEvents rws) _ h0
      rfl rfl rfl Nat.one_ne_zero
    rw [hext]
    rfl


lemma run_emptyTable (w : String) (hw : pyStrip w = "") :
    run initState (emptyTableEvents w) = shiftState initState := by
  have hnb : rowNonBlank [w] = false := by
    simp [rowNonBlank, hw]
  have hsplit : emptyTableEvents w =
      .startTag "table" :: (rowEvents [w] ++ [.endTag "table"]) := rfl
  rw [hsplit, run_cons,
    show step initState (.startTag "table") =
      { initState with in_table := true, table_count := 1 } from by decide,
    run_append,
    run_rowEvents_blank { initState with in_table := true, table_count := 1 }
      [w] rfl rfl rfl rfl rfl rfl rfl rfl rfl rfl rfl hnb,
    run_singleton]
  decide

/-- C3: a target table occurrence that closes with neither headers nor rows
makes the engine increment the target index by one and continue the same
pass: for every continuation of the event stream, the extraction result is
exactly the one the continuation alone would produce (so a later non-empty
occurrence is returned as if it were the originally requested index),
provided the continuation contains at least one table start tag. -/
theorem c3_empty_table_retargets (w : String) (rest : List Event)
    (hw : pyStrip w = "")
    (ht : (run initState rest).table_count ≠ 0) :
    extractEvents (emptyTableEvents w ++ rest) = extractEvents rest ∧
    (run initState (emptyTableEvents w ++ rest)).target_table =
      (run initState rest).target_table + 1 := by
  have hrun : run initState (emptyTableEvents w ++ rest) =
      shiftState (run initState rest) := by
    rw [run_append, run_emptyTable w hw, run_shift]
  constructor
  · unfold extractEvents
    rw [hrun]
    generalize hq : run initState rest = q at ht ⊢
    obtain ⟨it, ith, itb, itr, ihh, itd, cr, cc, hd, rs, tc, stk, ncn, fnc, hnc, tt, fl⟩ := q
    unfold shiftState
    dsimp only at ht ⊢
    split_ifs <;> first | rfl | omega | contradiction
  · rw [hrun]
    rfl

/-- C3 witness: concrete scenario 2, an empty first occurrence followed by a
table with one header row and one data row. -/
theorem c3_empty_table_retargets_witness :
    extractEvents (emptyTableEvents c3_blank_cell ++ tokenize c3_rest_input) =
      extractEvents (tokenize c3_rest_input) ∧
    (run initState
      (emptyTableEvents c3_blank_cell ++ tokenize c3_rest_input)).target_table =
      (run initState (tokenize c3_rest_input)).target_table + 1 :=
  c3_empty_table_retargets c3_blank_cell (tokenize c3_rest_input)
    (by rfl) (by decide)


lemma cell_flags_nested_start (st : State) (tag : String) :
    ((handle_nested_element_start st tag).in_th &&
      (handle_nested_element_start st tag).in_td) = (st.in_th && st.in_td) := by
  simp only [handle_nested_element_start]
  split_ifs <;> rfl

lemma cell_flags_nested_end (st : State) (tag : String) :
    ((handle_nested_element_end st tag).in_th &&
      (handle_nested_element_end st tag).in_td) = (st.in_th && st.in_td) := by
  unfold handle_nested_element_end
  split
  · dsimp only
    split_ifs <;> rfl
  · rfl

lemma cell_flags_row_end (st : State) :
    ((handle_row_end st).in_th && (handle_row_end st).in_td) =
      (st.in_th && st.in_td) := by
  simp only [handle_row_end, add_header_row, add_data_row]
  split_ifs <;> rfl

lemma cell_flags_cell_data (st : State) (d : String) :
    ((handle_cell_data st d).in_th && (handle_cell_data st d).in_td) =
      (st.in_th && st.in_td) := by
  simp only [handle_cell_data]
  split_ifs <;> rfl

lemma cell_flags_step (st : State) (e : Event)
    (hg : cellStartGuardOk st e = true)
    (h : (st.in_th && st.in_td) = false) :
    ((step st e).in_th && (step st e).in_td) = false := by
  obtain ⟨it, ith, itb, itr, ihh, itd, cr, cc, hd, rs, tc, stk, ncn, fnc, hnc, tt, fl⟩ := st
  dsimp only at hg h ⊢
  cases fl with
  | true =>
    rw [step_failed _ e rfl]
    exact h
  | false =>
    cases e with
    | startTag tag =>
      rw [step_startTag _ tag rfl]
      dsimp only [cellStartGuardOk] at hg
      by_cases h1 : tag = "table"
      · simp only [handle_starttag, if_pos h1, handle_table_start]
        split_ifs <;> exact h
      · simp only [handle_starttag, if_neg h1]
        split_ifs with h2 h3
        · simp only [handle_table_content_start, handle_row_start,
            handle_header_cell_start, handle_data_cell_start, reset_cell_state]
          split_ifs with ha hb hc hd2 he
          · exact h
          · exact h
          · exact h
          · simp only [Bool.and_eq_true, decide_eq_true_eq] at hd2
            rw [if_pos (by simp [hd2.1] :
              (decide (tag = "th") || decide (tag = "td")) = true)] at hg
            simp at hg
            simp [hg.2]
          · simp only [Bool.and_eq_true, decide_eq_true_eq] at he
            rw [if_pos (by simp [he.1] :
              (decide (tag = "th") || decide (tag = "td")) = true)] at hg
            simp at hg
            simp [hg.1]
          · exact h
        · rw [cell_flags_nested_start]
          exact h
        · exact h
    | endTag tag =>
      rw [step_endTag _ tag rfl]
      unfold handle_endtag
      split_ifs with h1 h2 h3
      · unfold handle_table_end
        split_ifs <;> exact h
      · unfold handle_table_content_end
        split_ifs
        · exact h
        · exact h
        · rw [cell_flags_row_end]
          exact h
        · unfold handle_header_cell_end get_final_cell_content reset_cell_state
          dsimp only
          simp
        · unfold handle_data_cell_end get_final_cell_content reset_cell_state
          dsimp only
          simp
        · exact h
      · rw [cell_flags_nested_end]
        exact h
      · exact h
    | text d =>
      rw [step_text _ d rfl]
      unfold handle_data
      split_ifs
      · rw [cell_flags_cell_data]
        exact h
      · exact h
    | entityRef n =>
      rw [step_entityRef _ n rfl]
      unfold handle_entityref
      split_ifs
      · rw [cell_flags_cell_data]
        exact h
      · exact h
    | charRef n =>
      rw [step_charRef _ n rfl]
      unfold handle_charref
      split_ifs with h1
      · cases hdec : decode_char_reference n with
        | some m =>
          dsimp only
          split_ifs with hv
          · rw [cell_flags_cell_data]
            exact h
          · exact h
        | none => exact h
      · exact h

lemma cellStartsGuarded_no_both :
    ∀ (es : List Event) (st : State),
      (st.in_th && st.in_td) = false →
      cellStartsGuarded st es = true →
      ((run st es).in_th && (run st es).in_td) = false := by
  intro es
  induction es with
  | nil => intro st h _; exact h
  | cons e es ih =>
    intro st h hg
    rw [show cellStartsGuarded st (e :: es) =
      (cellStartGuardOk st e && cellStartsGuarded (step st e) es) from rfl,
      Bool.and_eq_true] at hg
    exact ih (step st e) (cell_flags_step st e hg.1 h) hg.2

/-- C7 amended: for every event sequence in which each th or td start tag
arrives while no cell is open (well-nested cell markup), the two cell flags
are never both set in the reachable state, so exactly one of in-header-cell,
in-data-cell, or neither holds. -/
theorem c7_cell_flags_exclusive_guarded (es : List Event)
    (h : cellStartsGuarded initState es = true) :
    ¬((run initState es).in_th = true ∧ (run initState es).in_td = true) := by
  have hb := cellStartsGuarded_no_both es initState rfl h
  rintro ⟨h1, h2⟩
  rw [h1, h2] at hb
  cases hb

/-- C7 witness: a well-nested sequence in which a td cell closes before a th
cell opens keeps the flags mutually exclusive. -/
theorem c7_cell_flags_exclusive_guarded_witness :
    ¬((run initState c7_witness_events).in_th = true ∧
      (run initState c7_witness_events).in_td = true) :=
  c7_cell_flags_exclusive_guarded c7_witness_events (by decide)



end SnowV3
